import Mathlib

/-!
Verification of the taskio-pro ticket-classification system.

The repository ships the relational schema (`database/init.sql`), the
frontend page, the TypeScript type declarations (`frontend/src/types`)
and the API client (`frontend/src/lib/api.ts`).  The backend pipeline
(cache, similarity index, heuristic fallback, completion client,
orchestrator, feedback handler) is specified in the design document but
its Python source is not part of the sources given here; those
components are modelled from the spec below, each such definition
carrying a doc comment starting with `Modelled from the spec:`.
Rational numbers stand in for the floats of the implementation.
-/

/-- The closed category enumeration, from `frontend/src/types`
(`TicketCategory`): Product Issue, Software Issue, Network Issue,
Battery Issue, General Question. -/
inductive TicketCategory where
  | productIssue
  | softwareIssue
  | networkIssue
  | batteryIssue
  | generalQuestion
deriving DecidableEq, Repr

/-- The five members of the enumeration, in declaration order of
`frontend/src/types` and of the `CATEGORIES` constant of the page. -/
def allCategories : List TicketCategory :=
  [.productIssue, .softwareIssue, .networkIssue, .batteryIssue, .generalQuestion]

/-- The wire label of a category, exactly the string literals of
`frontend/src/types`. -/
def TicketCategory.label : TicketCategory → String
  | .productIssue => "Product Issue"
  | .softwareIssue => "Software Issue"
  | .networkIssue => "Network Issue"
  | .batteryIssue => "Battery Issue"
  | .generalQuestion => "General Question"

/-- Parse a wire label back into the closed enumeration; any other
string is invalid at every boundary. -/
def categoryFromLabel (s : String) : Option TicketCategory :=
  allCategories.find? (fun c => c.label == s)

/-- Ticket status enumeration from `frontend/src/types`
(`TicketStatus`): "open" | "classified" | "corrected" | "resolved". -/
inductive TicketStatus where
  | open_
  | classified
  | corrected
  | resolved
deriving DecidableEq, Repr

/-- A similar-ticket entry, from `frontend/src/types`
(`SimilarTicket`): id, category (nullable string), similarity. -/
structure SimilarTicket where
  id : String
  category : Option String
  similarity : ℚ
deriving DecidableEq, Repr

/-- A classification result, from `frontend/src/types`
(`ClassificationResult`). -/
structure ClassificationResult where
  category : TicketCategory
  confidence : ℚ
  reasoning : String
  key_indicators : List String
  similar_tickets : List SimilarTicket
  latency_ms : ℚ
  cached : Bool
  rag_used : Bool
deriving DecidableEq, Repr

/-- A ticket record, from `frontend/src/types` (`Ticket`) and the
`tickets` table of `database/init.sql`; timestamps are modelled as
natural clock ticks. -/
structure Ticket where
  id : String
  title : String
  description : String
  predicted_category : Option TicketCategory
  actual_category : Option TicketCategory
  confidence_score : Option ℚ
  reasoning : Option String
  status : TicketStatus
  created_at : Nat
  updated_at : Nat
deriving DecidableEq, Repr

/-- A feedback-log entry, from the `feedback_logs` table of
`database/init.sql`: ticket reference, old label, new label, free-text
feedback, timestamp. -/
structure FeedbackLogEntry where
  ticket_id : String
  old_label : Option String
  new_label : Option String
  feedback : Option String
  created_at : Nat
deriving DecidableEq, Repr

/-- Whether `needle` starts `hay` (character lists). -/
def charsLeadWith : List Char → List Char → Bool
  | [], _ => true
  | _ :: _, [] => false
  | a :: as, b :: bs => a == b && charsLeadWith as bs

/-- Whether `needle` occurs as a contiguous run inside `hay`. -/
def charsContain (needle : List Char) : List Char → Bool
  | [] => needle.isEmpty
  | b :: bs => charsLeadWith needle (b :: bs) || charsContain needle bs

/-- Case-sensitive substring test on strings. -/
def containsSub (needle hay : String) : Bool :=
  charsContain needle.toList hay.toList

/-- Lower-case a string characterwise (structural version of
`String.toLower`). -/
def lowerString (s : String) : String :=
  String.mk (s.toList.map Char.toLower)

/-- Split a character list into maximal whitespace-free words; the
accumulator holds the current word reversed. -/
def wordsAcc : List Char → List Char → List (List Char)
  | [], acc => if acc.isEmpty then [] else [acc.reverse]
  | c :: cs, acc =>
    if c.isWhitespace then
      if acc.isEmpty then wordsAcc cs [] else acc.reverse :: wordsAcc cs []
    else wordsAcc cs (c :: acc)

/-- Join words with single spaces. -/
def joinWords : List (List Char) → List Char
  | [] => []
  | [w] => w
  | w :: w2 :: ws => w ++ ' ' :: joinWords (w2 :: ws)

/-- Modelled from the spec: the cache-key normalization (§3, §4.1) —
case-folded and whitespace-collapsed ticket text.  The hashing step of
the implementation is not modelled; the normalized string itself serves
as the deterministic fingerprint. -/
def normalizeText (s : String) : String :=
  String.mk (joinWords (wordsAcc (s.toList.map Char.toLower) []))

/-- Modelled from the spec: the category-specific keyword sets of the
heuristic fallback classifier (§4.4).  The spec fixes the mechanism
(case-insensitive keyword match per category) but not the concrete
word lists; these are representative lists matching the category
glosses of the README ("Physical hardware problems", "App crashes,
bugs, errors", "WiFi, connectivity problems", "Power and charging
issues", "How-to and account inquiries"). -/
def fallbackKeywords : TicketCategory → List String
  | .productIssue => ["screen", "cracked", "broken", "damaged", "hardware", "dropped"]
  | .softwareIssue => ["crash", "bug", "error", "freeze", "app"]
  | .networkIssue => ["wifi", "network", "connect", "internet", "signal"]
  | .batteryIssue => ["battery", "charge", "charging", "drain", "power"]
  | .generalQuestion => ["how", "password", "account", "help", "question"]

/-- Modelled from the spec: the fixed, lower fallback confidence value
(§4.4) signalling a low-confidence fallback result. -/
def fallbackConfidence : ℚ := 3 / 10

/-- The keywords of a category matched case-insensitively in a text. -/
def matchedKeywords (text : String) (c : TicketCategory) : List String :=
  (fallbackKeywords c).filter (fun kw => containsSub kw (lowerString text))

/-- The fallback score of a category on a text: its keyword match
count. -/
def fallbackScore (text : String) (c : TicketCategory) : Nat :=
  (matchedKeywords text c).length

/-- Modelled from the spec: the fallback category choice (§4.4) — the
category with the highest match count, with General Question winning
every tie (in particular the all-zero full tie). -/
def fallbackPick (text : String) : TicketCategory :=
  [TicketCategory.productIssue, .softwareIssue, .networkIssue, .batteryIssue].foldl
    (fun best c => if fallbackScore text c > fallbackScore text best then c else best)
    TicketCategory.generalQuestion

/-- Modelled from the spec: the heuristic fallback classifier (§4.4),
a pure total function over the fixed keyword sets; `rag_used = false`,
`key_indicators` = the matched keywords, fixed confidence. -/
def fallbackClassify (text : String) : ClassificationResult :=
  let c := fallbackPick text
  { category := c
    confidence := fallbackConfidence
    reasoning := "Keyword-based fallback classification"
    key_indicators := matchedKeywords text c
    similar_tickets := []
    latency_ms := 0
    cached := false
    rag_used := false }

/-- An entry of the similarity index: ticket id, embedding vector,
category label (corrected takes precedence once available), insertion
time (§3, Index entry). -/
structure IndexEntry where
  ticket_id : String
  embedding : List ℚ
  category : Option TicketCategory
  insertedAt : Nat
deriving DecidableEq, Repr

/-- The ranking relation of `query_similar` (§4.2): descending
similarity, ties broken by most-recent insertion first. -/
def simRank (a b : IndexEntry × ℚ) : Prop :=
  b.2 < a.2 ∨ (a.2 = b.2 ∧ b.1.insertedAt ≤ a.1.insertedAt)

instance : DecidableRel simRank := by
  intro a b
  unfold simRank
  infer_instance

instance : IsTotal (IndexEntry × ℚ) simRank := by
  constructor
  intro a b
  rcases lt_trichotomy a.2 b.2 with h | h | h
  · exact Or.inr (Or.inl h)
  · rcases Nat.le_total b.1.insertedAt a.1.insertedAt with h2 | h2
    · exact Or.inl (Or.inr ⟨h, h2⟩)
    · exact Or.inr (Or.inr ⟨h.symm, h2⟩)
  · exact Or.inl (Or.inl h)

instance : IsTrans (IndexEntry × ℚ) simRank := by
  constructor
  intro a b c hab hbc
  rcases hab with h1 | ⟨h1, h1t⟩
  · rcases hbc with h2 | ⟨h2, _⟩
    · exact Or.inl (h2.trans h1)
    · exact Or.inl (h2 ▸ h1)
  · rcases hbc with h2 | ⟨h2, h2t⟩
    · exact Or.inl (h1 ▸ h2)
    · exact Or.inr ⟨h1.trans h2, h2t.trans h1t⟩

/-- Modelled from the spec: score every index entry against the query
and sort by descending similarity with most-recent-first tie-break,
keeping the top k (§4.2).  `sim` abstracts the similarity of the query
against a stored embedding (cosine or an equivalent monotone metric). -/
def querySimilarScored (index : List IndexEntry) (sim : List ℚ → ℚ) (k : Nat) :
    List (IndexEntry × ℚ) :=
  (List.insertionSort simRank (index.map (fun e => (e, sim e.embedding)))).take k

/-- Modelled from the spec: `query_similar` (§4.2) — an ordered
sequence of (ticket id, category, similarity) of length at most k;
fewer than k entries (including zero) is a valid result. -/
def query_similar (index : List IndexEntry) (sim : List ℚ → ℚ) (k : Nat) :
    List SimilarTicket :=
  (querySimilarScored index sim k).map
    (fun p => ⟨p.1.ticket_id, p.1.category.map TicketCategory.label, p.2⟩)

/-- Modelled from the spec: a toy injective text embedding standing in
for the embedding model (§4.2, explicitly out of design scope); the
claims proved below do not depend on its values. -/
def embedText (s : String) : List ℚ :=
  (normalizeText s).toList.map (fun ch => (ch.toNat : ℚ))

/-- Modelled from the spec: a monotone-equivalent stand-in for cosine
similarity — the negated squared distance of the overlapping
coordinates. -/
def simScore (q v : List ℚ) : ℚ :=
  -(((q.zip v).map (fun p => (p.1 - p.2) * (p.1 - p.2))).sum)

/-- A fingerprint-cache entry: normalized-text key, store time, stored
result snapshot (§3, Cache entry). -/
structure CacheEntry where
  key : String
  storedAt : Nat
  result : ClassificationResult
deriving DecidableEq, Repr

/-- Modelled from the spec: the cache time-to-live (§3); the concrete
duration is not fixed by the sources given, only that entries older
than it are stale. -/
def cacheTTL : Nat := 3600

/-- Modelled from the spec: cache lookup (§4.1) — a hit is an entry
with the same normalized key stored within the TTL. -/
def cacheLookup (cache : List CacheEntry) (key : String) (now : Nat) :
    Option ClassificationResult :=
  (cache.find? (fun e => e.key == key && decide (now < e.storedAt + cacheTTL))).map
    (fun e => e.result)

/-- Modelled from the spec: cache store (§4.1), write-through on the
miss path. -/
def cacheStore (cache : List CacheEntry) (key : String) (r : ClassificationResult)
    (now : Nat) : List CacheEntry :=
  ⟨key, now, r⟩ :: cache

/-- A raw model response before schema validation: the category is
still a free string at this boundary. -/
structure ModelResponse where
  category : String
  confidence : ℚ
  reasoning : String
  key_indicators : List String
deriving DecidableEq, Repr

/-- A completion that passed schema validation. -/
structure ParsedCompletion where
  category : TicketCategory
  confidence : ℚ
  reasoning : String
  key_indicators : List String
deriving DecidableEq, Repr

/-- Clamp a confidence value into [0,1] (§4.3). -/
def clamp01 (q : ℚ) : ℚ := max 0 (min 1 q)

/-- Modelled from the spec: parse-validation of a model response
(§4.3) — a category outside the closed enumeration is a schema
violation, never coerced; confidence is clamped into [0,1]. -/
def parseCompletion (r : ModelResponse) : Option ParsedCompletion :=
  match categoryFromLabel r.category with
  | some c => some ⟨c, clamp01 r.confidence, r.reasoning, r.key_indicators⟩
  | none => none

/-- The behaviour of the underlying model on one request: the first
attempt and the single corrective retry; `none` stands for model
unavailability or timeout. -/
structure ModelOracle where
  first : Option ModelResponse
  retry : Option ModelResponse
deriving DecidableEq, Repr

/-- Modelled from the spec: the structured completion client (§4.3) —
invoke the model, parse against the fixed schema, retry at most once on
parse failure; `none` is the SchemaViolation / unavailability outcome
on which the caller falls back. -/
def completionClassify (o : ModelOracle) : Option ParsedCompletion :=
  match o.first with
  | none => none
  | some r =>
    match parseCompletion r with
    | some p => some p
    | none => o.retry.bind parseCompletion

/-- The whole persistent state: relational store (tickets and feedback
logs), fingerprint cache, similarity index, and a logical clock. -/
structure SystemState where
  tickets : List Ticket
  feedback_logs : List FeedbackLogEntry
  cache : List CacheEntry
  index : List IndexEntry
  now : Nat
deriving DecidableEq, Repr

/-- The empty initial state. -/
def initialState : SystemState := ⟨[], [], [], [], 0⟩

/-- The user-visible error taxonomy (§7): only ValidationError,
NotFound and InvalidCategory surface to the caller. -/
inductive ApiError where
  | validationError
  | notFound
  | invalidCategory
deriving DecidableEq, Repr

/-- The enforced minimum description length, from the frontend guard in
`handleClassify` (`description.length < 10`). -/
def minDescriptionLength : Nat := 10

/-- Modelled from the spec: the fixed retrieval constant k (§4.2, on
the order of 3–5). -/
def topK : Nat := 5

/-- Modelled from the spec: the create-and-classify operation — the
orchestrator state machine of §4.5 plus persistence of the new ticket.
Validation runs first; then CacheCheck (hit returns the snapshot with
`cached = true`), else Retrieve, Complete (falling back to the
heuristic classifier on failure), and Persist (ticket row, write-through
cache, index insert).  Per the corrected note of §8, `rag_used`
reflects the retrieval attempt, not the completion source. -/
def createTicket (st : SystemState) (newId : String) (title : Option String)
    (description : String) (o : ModelOracle) :
    Except ApiError (Ticket × ClassificationResult) × SystemState :=
  if description.length < minDescriptionLength then
    (.error .validationError, st)
  else
    let fullText := (title.getD "") ++ " " ++ description
    let key := normalizeText fullText
    match cacheLookup st.cache key st.now with
    | some r0 =>
      let r := { r0 with cached := true, latency_ms := 0 }
      let t : Ticket :=
        { id := newId, title := title.getD "", description := description
          predicted_category := some r.category, actual_category := none
          confidence_score := some r.confidence, reasoning := some r.reasoning
          status := .classified, created_at := st.now, updated_at := st.now }
      (.ok (t, r), { st with tickets := st.tickets ++ [t], now := st.now + 1 })
    | none =>
      let similar := query_similar st.index (simScore (embedText fullText)) topK
      let ragUsed := !similar.isEmpty
      let r : ClassificationResult :=
        match completionClassify o with
        | some p =>
          { category := p.category, confidence := p.confidence
            reasoning := p.reasoning, key_indicators := p.key_indicators
            similar_tickets := similar, latency_ms := 450
            cached := false, rag_used := ragUsed }
        | none =>
          { fallbackClassify fullText with
              similar_tickets := similar, rag_used := ragUsed }
      let t : Ticket :=
        { id := newId, title := title.getD "", description := description
          predicted_category := some r.category, actual_category := none
          confidence_score := some r.confidence, reasoning := some r.reasoning
          status := .classified, created_at := st.now, updated_at := st.now }
      (.ok (t, r),
        { st with
            tickets := st.tickets ++ [t]
            cache := cacheStore st.cache key r st.now
            index := ⟨newId, embedText fullText, some r.category, st.now⟩ :: st.index
            now := st.now + 1 })

/-- Fetch a ticket by id from the relational store (`get_ticket`). -/
def getTicket (st : SystemState) (ticketId : String) : Option Ticket :=
  st.tickets.find? (fun t => t.id == ticketId)

/-- The label a ticket currently carries: the human correction once
present, the prediction otherwise. -/
def effectiveLabel (t : Ticket) : Option TicketCategory :=
  match t.actual_category with
  | some a => some a
  | none => t.predicted_category

/-- Modelled from the spec: the correction/feedback handler (§4.6).
The category arrives as a free string at the boundary and must parse
into the closed enumeration (`InvalidCategory`); the id must reference
an existing ticket (`NotFound`).  On success: update
`actual_category` and `status = corrected`, append a FeedbackLogEntry
with old and new label, update the index label, and invalidate the
cache entry of the ticket's fingerprint.  On failure the state is
returned unchanged. -/
def correctTicket (st : SystemState) (ticketId : String) (newCategory : String)
    (fb : Option String) : Except ApiError Ticket × SystemState :=
  match categoryFromLabel newCategory with
  | none => (.error .invalidCategory, st)
  | some c =>
    match st.tickets.find? (fun t => t.id == ticketId) with
    | none => (.error .notFound, st)
    | some t =>
      let t2 := { t with actual_category := some c, status := TicketStatus.corrected
                         updated_at := st.now }
      let entry : FeedbackLogEntry :=
        { ticket_id := ticketId
          old_label := (effectiveLabel t).map TicketCategory.label
          new_label := some c.label
          feedback := fb
          created_at := st.now }
      (.ok t2,
        { st with
            tickets := st.tickets.map (fun u => if u.id == ticketId then t2 else u)
            feedback_logs := st.feedback_logs ++ [entry]
            index := st.index.map
              (fun e => if e.ticket_id == ticketId then { e with category := some c } else e)
            cache := st.cache.filter
              (fun e => e.key != normalizeText (t.title ++ " " ++ t.description))
            now := st.now + 1 })

/-- The states reachable through the public operations (create-and-
classify, correct) from the empty store, with arbitrary passage of
time. -/
inductive Reachable : SystemState → Prop where
  | init : Reachable initialState
  | create (st : SystemState) (newId : String) (title : Option String)
      (description : String) (o : ModelOracle) :
      Reachable st → Reachable (createTicket st newId title description o).2
  | correct (st : SystemState) (ticketId newCategory : String) (fb : Option String) :
      Reachable st → Reachable (correctTicket st ticketId newCategory fb).2
  | tick (st : SystemState) (t : Nat) :
      Reachable st → Reachable { st with now := t }

/-- The row shape of the `accuracy_metrics` view of
`database/init.sql`. -/
structure AccuracyMetrics where
  total_reviewed : Nat
  correct_predictions : Nat
  accuracy_percentage : ℚ
deriving DecidableEq, Repr

/-- ROUND(x, 2) of PostgreSQL on NUMERIC rounds half away from zero;
on the nonnegative values of the view this agrees with rounding half
up, which is what `round` does on ℚ. -/
def roundTo2 (q : ℚ) : ℚ := (round (q * 100) : ℤ) / 100

/-- COUNT(*) FILTER (WHERE actual_category IS NOT NULL), from
`database/init.sql` line 40. -/
def countReviewed (ts : List Ticket) : Nat :=
  ts.countP (fun t => t.actual_category.isSome)

/-- COUNT(*) FILTER (WHERE predicted_category = actual_category), from
`database/init.sql` line 41; under SQL three-valued logic the equality
holds only when both columns are non-null and equal. -/
def countCorrect (ts : List Ticket) : Nat :=
  ts.countP (fun t =>
    match t.predicted_category, t.actual_category with
    | some p, some a => p == a
    | _, _ => false)

/-- The `accuracy_metrics` view of `database/init.sql` lines 38–50:
total reviewed, correct predictions, and the guarded rounded
percentage (0 when nothing has been reviewed). -/
def accuracy_metrics (ts : List Ticket) : AccuracyMetrics :=
  { total_reviewed := countReviewed ts
    correct_predictions := countCorrect ts
    accuracy_percentage :=
      if 0 < countReviewed ts then
        roundTo2 ((countCorrect ts : ℚ) / (countReviewed ts : ℚ) * 100)
      else 0 }

/-- The accuracy percentage as the claim words it: among the tickets
with a non-null `actual_category`, the share whose prediction equals
the correction, rounded to two decimals, and 0 when that set is
empty.  Stated independently for comparison with the view. -/
def accuracySpecPercentage (ts : List Ticket) : ℚ :=
  let reviewed := ts.filter (fun t => t.actual_category.isSome)
  let agree := reviewed.filter (fun t => t.predicted_category == t.actual_category)
  if reviewed.length = 0 then 0
  else roundTo2 ((agree.length : ℚ) / (reviewed.length : ℚ) * 100)

/-- The Boolean form of the per-ticket status invariant actually
maintained by the operations: `open` only with no labels at all, a
prediction forces `classified` or `corrected`, a correction forces
`corrected`. -/
def ticketStatusInvariant (t : Ticket) : Bool :=
  (if t.status == TicketStatus.open_ then
      t.predicted_category.isNone && t.actual_category.isNone
    else true) &&
  (if t.predicted_category.isSome then
      t.status == TicketStatus.classified || t.status == TicketStatus.corrected
    else true) &&
  (if t.actual_category.isSome then t.status == TicketStatus.corrected else true)

/-- Every cached snapshot carries a confidence in [0,1]; an invariant
of the pipeline, used to cover the cache-hit path of the classify
contract. -/
def cacheConfidenceWF (st : SystemState) : Prop :=
  ∀ e ∈ st.cache, 0 ≤ e.result.confidence ∧ e.result.confidence ≤ 1

/-- A concrete one-step run: create-and-classify one ticket on the
empty store (model unavailable, so the heuristic fallback labels it
Product Issue). -/
def oneTicketState : SystemState :=
  (createTicket initialState "t1" none
    "My phone screen is cracked after I dropped it yesterday" ⟨none, none⟩).2

/-- A concrete two-step run: the one-ticket state, then the ticket
corrected to Software Issue. -/
def c7State : SystemState :=
  (correctTicket oneTicketState "t1" "Software Issue" none).2

/-- The reachability certificate of `c7State`. -/
def c7State_reachable : Reachable c7State :=
  .correct _ "t1" "Software Issue" none
    (.create initialState "t1" none
      "My phone screen is cracked after I dropped it yesterday" ⟨none, none⟩ .init)

/-- Every inhabitant of the category type is one of the five
enumerated members. -/
theorem mem_allCategories (c : TicketCategory) : c ∈ allCategories := by
  cases c <;> simp [allCategories]

/-- Parsing the label of a category recovers the category. -/
theorem categoryFromLabel_label (c : TicketCategory) :
    categoryFromLabel c.label = some c := by
  cases c <;> rfl

/-- `clamp01` lands in [0,1]. -/
theorem clamp01_mem (q : ℚ) : 0 ≤ clamp01 q ∧ clamp01 q ≤ 1 := by
  unfold clamp01
  constructor
  · exact le_max_left 0 _
  · exact max_le (by norm_num) (min_le_left 1 q)

/-- Any parsed completion carries a clamped confidence. -/
theorem completionClassify_confidence_mem (o : ModelOracle) (p : ParsedCompletion)
    (h : completionClassify o = some p) : 0 ≤ p.confidence ∧ p.confidence ≤ 1 := by
  have hparse : ∀ r : ModelResponse, ∀ q : ParsedCompletion,
      parseCompletion r = some q → 0 ≤ q.confidence ∧ q.confidence ≤ 1 := by
    intro r q hq
    unfold parseCompletion at hq
    rcases hcat : categoryFromLabel r.category with _ | c <;> rw [hcat] at hq
    · exact absurd hq (by simp)
    · obtain rfl : q = ⟨c, clamp01 r.confidence, r.reasoning, r.key_indicators⟩ := by
        simpa using hq.symm
      exact clamp01_mem r.confidence
  unfold completionClassify at h
  split at h
  · exact absurd h (by simp)
  · split at h
    · rename_i hq
      injection h with h2
      exact h2 ▸ hparse _ _ hq
    · rcases hr : o.retry with _ | r2 <;> rw [hr] at h
      · exact absurd h (by simp)
      · exact hparse r2 p (by simpa using h)

/-- The running best of the keep-strictly-better fold dominates the
seed and every scanned element. -/
theorem argmaxFold_le (s : TicketCategory → Nat) (l : List TicketCategory)
    (b : TicketCategory) :
    ∀ c, c = b ∨ c ∈ l →
      s c ≤ s (l.foldl (fun best x => if s x > s best then x else best) b) := by
  induction l generalizing b with
  | nil =>
    intro c hc
    rcases hc with rfl | h
    · exact le_refl _
    · simp at h
  | cons a l ih =>
    intro c hc
    simp only [List.foldl_cons]
    have hb : s b ≤ s (if s a > s b then a else b) := by
      split_ifs with hh
      · omega
      · exact le_refl _
    have ha : s a ≤ s (if s a > s b then a else b) := by
      split_ifs with hh
      · exact le_refl _
      · omega
    have hbest := ih (if s a > s b then a else b) (if s a > s b then a else b) (Or.inl rfl)
    rcases hc with rfl | hm
    · exact le_trans hb hbest
    · rcases List.mem_cons.mp hm with rfl | hm2
      · exact le_trans ha hbest
      · exact ih (if s a > s b then a else b) c (Or.inr hm2)

/-- When every scanned element ties the seed, the keep-strictly-better
fold returns the seed. -/
theorem argmaxFold_tie (s : TicketCategory → Nat) (l : List TicketCategory)
    (b : TicketCategory) (h : ∀ c ∈ l, s c = s b) :
    l.foldl (fun best x => if s x > s best then x else best) b = b := by
  induction l with
  | nil => rfl
  | cons a l ih =>
    simp only [List.foldl_cons]
    have ha : s a = s b := h a (List.mem_cons_self a l)
    rw [if_neg (by omega)]
    exact ih (fun c hc => h c (List.mem_cons_of_mem a hc))


/-- C2: the heuristic fallback classifier is a total function on text:
it always returns a result carrying the fixed fallback confidence
value, its category has the highest keyword-match score of the five
categories, and on a full tie of all scores (in particular all-zero)
it deterministically returns General Question. -/
theorem fallback_classifier_total_majority_tiebreak (text : String) :
    (fallbackClassify text).confidence = fallbackConfidence ∧
    (∀ c : TicketCategory,
      fallbackScore text c ≤ fallbackScore text (fallbackClassify text).category) ∧
    ((∀ c : TicketCategory,
        fallbackScore text c = fallbackScore text TicketCategory.generalQuestion) →
      (fallbackClassify text).category = TicketCategory.generalQuestion) := by
  refine ⟨rfl, ?_, ?_⟩
  · intro c
    show fallbackScore text c ≤ fallbackScore text (fallbackPick text)
    unfold fallbackPick
    refine argmaxFold_le (fallbackScore text) _ TicketCategory.generalQuestion c ?_
    cases c <;> simp
  · intro h
    show fallbackPick text = TicketCategory.generalQuestion
    unfold fallbackPick
    refine argmaxFold_tie (fallbackScore text) _ TicketCategory.generalQuestion ?_
    intro c _
    exact h c

/-- Witness for C2 on the empty text: all keyword scores are zero (a
full tie), so the result is General Question with the fixed fallback
confidence. -/
theorem fallback_classifier_total_majority_tiebreak_witness :
    (fallbackClassify "").confidence = fallbackConfidence ∧
    (fallbackClassify "").category = TicketCategory.generalQuestion :=
  ⟨(fallback_classifier_total_majority_tiebreak "").1,
   (fallback_classifier_total_majority_tiebreak "").2.2 (by intro c; cases c <;> decide)⟩

/-- C8: a submission whose description is below the minimum length
fails with ValidationError before any pipeline work: the state (cache,
index, store) is returned untouched and the outcome does not depend on
the model oracle, so no cache lookup, retrieval, completion, fallback
or persistence can have happened. -/
theorem short_description_validation_error_no_work
    (st : SystemState) (newId : String) (title : Option String)
    (description : String) (o : ModelOracle)
    (h : description.length < minDescriptionLength) :
    createTicket st newId title description o =
      (.error ApiError.validationError, st) := by
  unfold createTicket
  rw [if_pos h]

/-- Witness for C8: a 5-character description is rejected with the
state unchanged. -/
theorem short_description_validation_error_no_work_witness :
    createTicket initialState "w8" none "short" ⟨none, none⟩ =
      (.error ApiError.validationError, initialState) :=
  short_description_validation_error_no_work initialState "w8" none "short"
    ⟨none, none⟩ (by decide)

/-- C5: the correct operation fails with InvalidCategory when the
supplied label is outside the closed enumeration, and with NotFound
when the id references no existing ticket; in both cases the returned
state is exactly the input state, so no record is modified. -/
theorem correct_invalid_category_and_not_found (st : SystemState) :
    (∀ (tid cat : String) (fb : Option String), categoryFromLabel cat = none →
      correctTicket st tid cat fb = (.error ApiError.invalidCategory, st)) ∧
    (∀ (tid cat : String) (fb : Option String) (c : TicketCategory),
      categoryFromLabel cat = some c → getTicket st tid = none →
      correctTicket st tid cat fb = (.error ApiError.notFound, st)) := by
  constructor
  · intro tid cat fb hcat
    unfold correctTicket
    rw [hcat]
  · intro tid cat fb c hcat hfind
    unfold correctTicket
    rw [hcat]
    unfold getTicket at hfind
    rw [hfind]

/-- Witness for C5: on the empty store, an out-of-enumeration label is
rejected as InvalidCategory and a valid label on an unknown id as
NotFound, both leaving the state unchanged. -/
theorem correct_invalid_category_and_not_found_witness :
    correctTicket initialState "t1" "Bogus Category" none =
      (.error ApiError.invalidCategory, initialState) ∧
    correctTicket initialState "t1" "Product Issue" none =
      (.error ApiError.notFound, initialState) :=
  ⟨(correct_invalid_category_and_not_found initialState).1 "t1" "Bogus Category"
      none (by decide),
   (correct_invalid_category_and_not_found initialState).2 "t1" "Product Issue"
      none .productIssue (by decide) (by decide)⟩

/-- C9: the title is optional in the create-and-classify interface: a
request with a valid description and no title is accepted, the new
ticket is persisted into the store in classified state, and it carries
the classification's category. -/
theorem title_optional_ticket_classified
    (st : SystemState) (newId : String) (description : String) (o : ModelOracle)
    (h : minDescriptionLength ≤ description.length) :
    ∃ t r st2, createTicket st newId none description o = (.ok (t, r), st2) ∧
      t ∈ st2.tickets ∧ t.status = TicketStatus.classified ∧
      t.predicted_category = some r.category ∧ t.description = description := by
  simp only [createTicket]
  rw [if_neg (by omega)]
  rcases hcache : cacheLookup st.cache
      (normalizeText (Option.getD none "" ++ " " ++ description)) st.now with _ | r0
  · exact ⟨_, _, _, rfl, by simp, rfl, rfl, rfl⟩
  · exact ⟨_, _, _, rfl, by simp, rfl, rfl, rfl⟩

/-- Witness for C9: a titleless request with a valid description is
accepted, persisted and classified on the empty store. -/
theorem title_optional_ticket_classified_witness :
    ∃ t r st2,
      createTicket initialState "w9" none "The app crashes on startup" ⟨none, none⟩ =
        (.ok (t, r), st2) ∧
      t ∈ st2.tickets ∧ t.status = TicketStatus.classified ∧
      t.predicted_category = some r.category ∧
      t.description = "The app crashes on startup" :=
  title_optional_ticket_classified initialState "w9" "The app crashes on startup"
    ⟨none, none⟩ (by decide)

/-- Every classification snapshot stored in the cache of a reachable
state has confidence in [0,1]. -/
theorem reachable_cache_wf (st : SystemState) (h : Reachable st) :
    cacheConfidenceWF st := by
  induction h with
  | init => intro e he; simp [initialState] at he
  | create st newId title description o hst ih =>
    intro e he
    revert he
    simp only [createTicket]
    split
    · exact fun he => ih e he
    · rcases hcache : cacheLookup st.cache
          (normalizeText (Option.getD title "" ++ " " ++ description)) st.now with _ | r0
      · rcases hcc : completionClassify o with _ | p
        · intro he
          rcases List.mem_cons.mp he with rfl | hm
          · constructor <;> norm_num [fallbackClassify, fallbackConfidence]
          · exact ih e hm
        · intro he
          rcases List.mem_cons.mp he with rfl | hm
          · exact completionClassify_confidence_mem o p hcc
          · exact ih e hm
      · exact fun he => ih e he
  | correct st tid cat fb hst ih =>
    intro e he
    revert he
    simp only [correctTicket]
    split
    · exact fun he => ih e he
    · split
      · exact fun he => ih e he
      · exact fun he => ih e (List.mem_filter.mp he).1
  | tick st t hst ih => exact ih

/-- C1: on any reachable state, classifying a description of at least
the minimum length succeeds and returns a result whose category is one
of the five members of the closed enumeration and whose confidence
lies in [0,1] — on the cache-hit, completion and fallback paths
alike. -/
theorem classify_category_closed_confidence_bounded
    (st : SystemState) (hst : Reachable st) (newId : String) (title : Option String)
    (description : String) (o : ModelOracle)
    (h : minDescriptionLength ≤ description.length) :
    ∃ t r st2, createTicket st newId title description o = (.ok (t, r), st2) ∧
      r.category ∈ allCategories ∧ 0 ≤ r.confidence ∧ r.confidence ≤ 1 := by
  have hwf := reachable_cache_wf st hst
  simp only [createTicket]
  rw [if_neg (by omega)]
  rcases hcache : cacheLookup st.cache
      (normalizeText (Option.getD title "" ++ " " ++ description)) st.now with _ | r0
  · rcases hcc : completionClassify o with _ | p
    · refine ⟨_, _, _, rfl, mem_allCategories _, ?_, ?_⟩ <;>
        norm_num [fallbackClassify, fallbackConfidence]
    · exact ⟨_, _, _, rfl, mem_allCategories _,
        (completionClassify_confidence_mem o p hcc).1,
        (completionClassify_confidence_mem o p hcc).2⟩
  · have hr0 : 0 ≤ r0.confidence ∧ r0.confidence ≤ 1 := by
      unfold cacheLookup at hcache
      rcases hfind : List.find?
          (fun e => e.key == normalizeText (Option.getD title "" ++ " " ++ description)
            && decide (st.now < e.storedAt + cacheTTL)) st.cache with _ | en
      · rw [hfind] at hcache
        exact absurd hcache (by simp)
      · rw [hfind] at hcache
        simp only [Option.map_some'] at hcache
        injection hcache with hres
        exact hres ▸ hwf en (List.mem_of_find?_eq_some hfind)
    exact ⟨_, _, _, rfl, mem_allCategories _, hr0.1, hr0.2⟩

/-- Witness for C1: a long-enough description on the empty (reachable)
state classifies with an in-enumeration category and bounded
confidence. -/
theorem classify_category_closed_confidence_bounded_witness :
    ∃ t r st2,
      createTicket initialState "w1" none "WiFi keeps disconnecting daily" ⟨none, none⟩ =
        (.ok (t, r), st2) ∧
      r.category ∈ allCategories ∧ 0 ≤ r.confidence ∧ r.confidence ≤ 1 :=
  classify_category_closed_confidence_bounded initialState .init "w1" none
    "WiFi keeps disconnecting daily" ⟨none, none⟩ (by decide)

/-- Shape of a create-and-classify call on a cache miss: the computed
result is returned with `cached = false`, and the state gains the
ticket, a write-through cache entry under the normalized key, and an
index entry. -/
theorem createTicket_miss (st : SystemState) (newId : String) (title : Option String)
    (description : String) (o : ModelOracle)
    (hlen : minDescriptionLength ≤ description.length)
    (hmiss : cacheLookup st.cache
      (normalizeText (Option.getD title "" ++ " " ++ description)) st.now = none) :
    ∃ t r, createTicket st newId title description o =
      (.ok (t, r),
        { st with
            tickets := st.tickets ++ [t]
            cache := cacheStore st.cache
              (normalizeText (Option.getD title "" ++ " " ++ description)) r st.now
            index := ⟨newId, embedText (Option.getD title "" ++ " " ++ description),
              some r.category, st.now⟩ :: st.index
            now := st.now + 1 }) ∧
      r.cached = false := by
  simp only [createTicket]
  rw [if_neg (by omega), hmiss]
  rcases hcc : completionClassify o with _ | p
  · exact ⟨_, _, rfl, rfl⟩
  · exact ⟨_, _, rfl, rfl⟩

/-- Shape of a create-and-classify call on a cache hit: the stored
snapshot is returned with `cached = true` and the same category and
confidence; only the ticket store and clock change. -/
theorem createTicket_hit (st : SystemState) (newId : String) (title : Option String)
    (description : String) (o : ModelOracle) (r0 : ClassificationResult)
    (hlen : minDescriptionLength ≤ description.length)
    (hhit : cacheLookup st.cache
      (normalizeText (Option.getD title "" ++ " " ++ description)) st.now = some r0) :
    ∃ t, createTicket st newId title description o =
      (.ok (t, { r0 with cached := true, latency_ms := 0 }),
        { st with tickets := st.tickets ++ [t], now := st.now + 1 }) := by
  simp only [createTicket]
  rw [if_neg (by omega), hhit]
  exact ⟨_, rfl⟩

/-- C3: submitting text with the same normalized fingerprint a second
time within the cache TTL: the first (miss) submission returns
`cached = false`, the second returns `cached = true` with category and
confidence identical to the first. -/
theorem cache_second_submission_hit
    (st : SystemState) (id1 id2 : String) (title1 title2 : Option String)
    (desc1 desc2 : String) (o1 o2 : ModelOracle) (later : Nat)
    (hlen1 : minDescriptionLength ≤ desc1.length)
    (hlen2 : minDescriptionLength ≤ desc2.length)
    (hnorm : normalizeText (Option.getD title2 "" ++ " " ++ desc2) =
             normalizeText (Option.getD title1 "" ++ " " ++ desc1))
    (hmiss : cacheLookup st.cache
      (normalizeText (Option.getD title1 "" ++ " " ++ desc1)) st.now = none)
    (httl : later < st.now + cacheTTL) :
    ∃ tk1 r1 st1 tk2 r2 st2,
      createTicket st id1 title1 desc1 o1 = (.ok (tk1, r1), st1) ∧
      createTicket { st1 with now := later } id2 title2 desc2 o2 =
        (.ok (tk2, r2), st2) ∧
      r1.cached = false ∧ r2.cached = true ∧
      r2.category = r1.category ∧ r2.confidence = r1.confidence := by
  obtain ⟨t1, r1, heq1, hc1⟩ :=
    createTicket_miss st id1 title1 desc1 o1 hlen1 hmiss
  have hhit : cacheLookup
      (cacheStore st.cache (normalizeText (Option.getD title1 "" ++ " " ++ desc1))
        r1 st.now)
      (normalizeText (Option.getD title2 "" ++ " " ++ desc2)) later = some r1 := by
    unfold cacheLookup cacheStore
    rw [List.find?_cons_of_pos]
    · rfl
    · simp [hnorm, httl]
  obtain ⟨t2, heq2⟩ := createTicket_hit
    { st with
        tickets := st.tickets ++ [t1]
        cache := cacheStore st.cache
          (normalizeText (Option.getD title1 "" ++ " " ++ desc1)) r1 st.now
        index := ⟨id1, embedText (Option.getD title1 "" ++ " " ++ desc1),
          some r1.category, st.now⟩ :: st.index
        now := later }
    id2 title2 desc2 o2 r1 hlen2 hhit
  rw [heq1]
  exact ⟨t1, r1, _, t2, _, _, rfl, heq2, hc1, rfl, rfl, rfl⟩

/-- Witness for C3: the identical network-issue text resubmitted one
tick later on the empty store hits the cache with the same category
and confidence. -/
theorem cache_second_submission_hit_witness :
    ∃ tk1 r1 st1 tk2 r2 st2,
      createTicket initialState "wa" none "WiFi drops every few minutes" ⟨none, none⟩ =
        (.ok (tk1, r1), st1) ∧
      createTicket { st1 with now := 1 } "wb" none "WiFi drops every few minutes"
        ⟨none, none⟩ = (.ok (tk2, r2), st2) ∧
      r1.cached = false ∧ r2.cached = true ∧
      r2.category = r1.category ∧ r2.confidence = r1.confidence :=
  cache_second_submission_hit initialState "wa" "wb" none none
    "WiFi drops every few minutes" "WiFi drops every few minutes" ⟨none, none⟩
    ⟨none, none⟩ 1 (by decide) (by decide) rfl (by decide) (by decide)

/-- Replacing exactly the tickets that match an id, by a ticket with
that same id, makes the subsequent fetch return the replacement. -/
theorem find?_map_replace (l : List Ticket) (tid : String) (t0 t2 : Ticket)
    (h : l.find? (fun t => t.id == tid) = some t0) (hid : t2.id = t0.id) :
    (l.map (fun u => if u.id == tid then t2 else u)).find? (fun t => t.id == tid) =
      some t2 := by
  induction l with
  | nil => simp at h
  | cons a l ih =>
    by_cases ha : (a.id == tid) = true
    · rw [@List.find?_cons_of_pos _ (fun t => t.id == tid) a l ha] at h
      injection h with h0
      simp only [List.map_cons, if_pos ha]
      refine @List.find?_cons_of_pos _ (fun t => t.id == tid) t2 _ ?_
      show (t2.id == tid) = true
      rw [hid, ← h0]
      exact ha
    · rw [@List.find?_cons_of_neg _ (fun t => t.id == tid) a l ha] at h
      simp only [List.map_cons, if_neg ha]
      rw [@List.find?_cons_of_neg _ (fun t => t.id == tid) a
        (List.map (fun u => if u.id == tid then t2 else u) l) ha]
      exact ih h

/-- C4: correcting an existing ticket to a category X of the closed
enumeration succeeds, sets `actual_category = X` and
`status = corrected` on the stored ticket (a subsequent fetch observes
exactly this), and appends one FeedbackLogEntry recording the previous
label and the new label X. -/
theorem correct_updates_ticket_and_logs
    (st : SystemState) (tid : String) (X : TicketCategory) (fb : Option String)
    (t0 : Ticket) (hfound : getTicket st tid = some t0) :
    ∃ t2 st2, correctTicket st tid X.label fb = (.ok t2, st2) ∧
      getTicket st2 tid = some t2 ∧
      t2.actual_category = some X ∧ t2.status = TicketStatus.corrected ∧
      st2.feedback_logs = st.feedback_logs ++
        [⟨tid, (effectiveLabel t0).map TicketCategory.label, some X.label, fb,
          st.now⟩] := by
  simp only [correctTicket]
  rw [categoryFromLabel_label]
  unfold getTicket at hfound
  rw [hfound]
  refine ⟨_, _, rfl, ?_, rfl, rfl, rfl⟩
  exact find?_map_replace st.tickets tid t0 _ hfound rfl

/-- Witness for C4: correcting the fallback-labelled ticket of the
one-ticket run to Software Issue succeeds, the re-fetched ticket shows
the correction and corrected status, and the log records
Product Issue → Software Issue. -/
theorem correct_updates_ticket_and_logs_witness :
    ∃ t2 st2,
      correctTicket oneTicketState "t1" TicketCategory.softwareIssue.label none =
        (.ok t2, st2) ∧
      getTicket st2 "t1" = some t2 ∧
      t2.actual_category = some TicketCategory.softwareIssue ∧
      t2.status = TicketStatus.corrected ∧
      st2.feedback_logs = oneTicketState.feedback_logs ++
        [⟨"t1", some "Product Issue", some "Software Issue", none, 1⟩] :=
  correct_updates_ticket_and_logs oneTicketState "t1" .softwareIssue none _ rfl

/-- C6: `query_similar` returns at most k entries, sorted descending
by similarity; on the scored sequence the order is the full ranking
(strictly greater similarity first, ties by most-recent insertion
first).  Shorter results, including the empty one, are ordinary
values, not failures. -/
theorem query_similar_bounded_sorted (index : List IndexEntry) (sim : List ℚ → ℚ)
    (k : Nat) :
    (query_similar index sim k).length ≤ k ∧
    List.Pairwise (fun a b : SimilarTicket => b.similarity ≤ a.similarity)
      (query_similar index sim k) ∧
    List.Pairwise simRank (querySimilarScored index sim k) := by
  have hsorted : List.Pairwise simRank
      (List.insertionSort simRank (index.map (fun e => (e, sim e.embedding)))) :=
    List.sorted_insertionSort simRank _
  have htake : List.Pairwise simRank (querySimilarScored index sim k) :=
    List.Pairwise.sublist (List.take_sublist _ _) hsorted
  refine ⟨?_, ?_, htake⟩
  · unfold query_similar querySimilarScored
    rw [List.length_map]
    exact le_trans (le_of_eq (List.length_take _ _)) (min_le_left _ _)
  · unfold query_similar
    refine List.Pairwise.map _ ?_ htake
    intro a b hab
    rcases hab with h | ⟨h, _⟩
    · exact le_of_lt h
    · exact le_of_eq h.symm

/-- Counterexample to C7 as stated: after the reachable two-step run
`c7State` (classify, then correct), the stored ticket still has its
`predicted_category` set while its status is `corrected`, so
"whenever predicted_category is set, status is classified" fails on a
state reachable through the public operations. -/
theorem predicted_set_status_classified_counterexample :
    ¬ (∀ st : SystemState, Reachable st → ∀ t ∈ st.tickets,
        t.predicted_category.isSome → t.status = TicketStatus.classified) := by
  intro h
  have hmem : ∃ t ∈ c7State.tickets,
      t.predicted_category.isSome ∧ t.status = TicketStatus.corrected := by decide
  obtain ⟨t, htm, hsome, hcorr⟩ := hmem
  have hcl := h c7State c7State_reachable t htm hsome
  rw [hcl] at hcorr
  exact absurd hcorr (by decide)

/-- C7 amended: every ticket state reachable through the public
operations satisfies the status invariant that the operations actually
maintain — status is `open` only when no label of any kind is set, a
set `predicted_category` forces status `classified` or `corrected`
(corrected tickets keep their prediction), and a set `actual_category`
forces status `corrected`. -/
theorem ticket_status_invariant_reachable :
    ∀ st : SystemState, Reachable st → ∀ t ∈ st.tickets,
      ticketStatusInvariant t = true := by
  intro st h
  induction h with
  | init => intro t ht; simp [initialState] at ht
  | create st newId title description o hst ih =>
    intro t ht
    revert ht
    simp only [createTicket]
    split
    · exact fun ht => ih t ht
    · rcases hcache : cacheLookup st.cache
          (normalizeText (Option.getD title "" ++ " " ++ description)) st.now with _ | r0
      all_goals intro ht
      all_goals simp only [List.mem_append, List.mem_singleton] at ht
      all_goals rcases ht with hm | rfl
      · exact ih t hm
      · rfl
      · exact ih t hm
      · rfl
  | correct st tid cat fb hst ih =>
    intro t ht
    revert ht
    simp only [correctTicket]
    split
    · exact fun ht => ih t ht
    · split
      · exact fun ht => ih t ht
      · intro ht
        simp only [List.mem_map] at ht
        obtain ⟨u, hu, hut⟩ := ht
        by_cases hid : (u.id == tid) = true
        · rw [if_pos hid] at hut
          subst hut
          simp [ticketStatusInvariant]
        · rw [if_neg hid] at hut
          subst hut
          exact ih u hu
  | tick st tnew hst ih => exact fun t ht => ih t ht

/-- Witness for amended C7: every ticket of the concrete reachable
two-step run satisfies the maintained status invariant. -/
theorem ticket_status_invariant_reachable_witness :
    c7State.tickets.all ticketStatusInvariant = true :=
  List.all_eq_true.mpr
    (fun t ht => ticket_status_invariant_reachable c7State c7State_reachable t ht)

/-- C10: the `accuracy_metrics` view is total on every tickets-table
state: `total_reviewed` counts the tickets with a non-null
`actual_category`, `correct_predictions` counts those whose prediction
equals the correction (SQL equality: both columns non-null), and
`accuracy_percentage` equals the independently stated spec formula —
the reviewed-share rounded to two decimals, and 0 (not a division by
zero) whenever no ticket has a non-null `actual_category`. -/
theorem accuracy_metrics_total_and_formula (ts : List Ticket) :
    (accuracy_metrics ts).total_reviewed =
      (ts.filter (fun t => t.actual_category.isSome)).length ∧
    (accuracy_metrics ts).correct_predictions =
      ((ts.filter (fun t => t.actual_category.isSome)).filter
        (fun t => t.predicted_category == t.actual_category)).length ∧
    (accuracy_metrics ts).accuracy_percentage = accuracySpecPercentage ts ∧
    ((∀ t ∈ ts, t.actual_category = none) →
      (accuracy_metrics ts).accuracy_percentage = 0) := by
  have h1 : countReviewed ts = (ts.filter (fun t => t.actual_category.isSome)).length := by
    unfold countReviewed
    rw [List.countP_eq_length_filter]
  have h2 : countCorrect ts =
      ((ts.filter (fun t => t.actual_category.isSome)).filter
        (fun t => t.predicted_category == t.actual_category)).length := by
    unfold countCorrect
    rw [List.filter_filter, List.countP_eq_length_filter]
    congr 1
    apply List.filter_congr
    intro t _
    cases hp : t.predicted_category <;> cases ha : t.actual_category <;> simp
  refine ⟨h1, h2, ?_, ?_⟩
  · unfold accuracy_metrics accuracySpecPercentage
    simp only [h1, h2]
    rcases Nat.eq_zero_or_pos (ts.filter (fun t => t.actual_category.isSome)).length
        with hz | hpos
    · rw [if_neg (by omega), if_pos hz]
    · rw [if_pos hpos, if_neg (by omega)]
  · intro hnone
    have hz : countReviewed ts = 0 := by
      unfold countReviewed
      refine List.countP_eq_zero.mpr ?_
      intro t ht
      rw [hnone t ht]
      simp
    unfold accuracy_metrics
    simp only [hz]
    rfl

/-- Witness for C10: on the empty tickets table nothing has been
reviewed and the view reports an accuracy of 0 rather than dividing by
zero. -/
theorem accuracy_metrics_total_and_formula_witness :
    (accuracy_metrics []).accuracy_percentage = 0 :=
  (accuracy_metrics_total_and_formula []).2.2.2 (by simp)
